import Mathlib

/-!
Verification development for the mcp-mysql server's discovery, classification
and caching engine.  Every definition below is a shallow embedding of the
corresponding TypeScript function in `src` (the single-class server in
`part_000`); JavaScript strings are modelled over their character data
(ASCII-faithful `toLowerCase`, `includes` as substring containment, UTF-16
lengths coincide with character counts on the ASCII catalog data involved),
JavaScript 32-bit integer coercions are modelled with explicit `% 2^32`
arithmetic on `Int`, and the filesystem cache directory is modelled as the
explicit list of files it contains.
-/

/-- ASCII model of JavaScript `String.prototype.toLowerCase` on a character:
code points 65..90 (A..Z) are shifted by 32, everything else is unchanged. -/

def asciiToLower (c : Char) : Char :=
  if 65 ≤ c.toNat ∧ c.toNat ≤ 90 then Char.ofNat (c.toNat + 32) else c

/-- JavaScript `s.toLowerCase()` (ASCII model). -/

def strToLower (s : String) : String :=
  ⟨s.data.map asciiToLower⟩

/-- Does `pat` occur as a contiguous run inside `s`?  (Helper for
`jsIncludes`.) -/

def listContainsSub (s pat : List Char) : Bool :=
  match s with
  | [] => pat.isEmpty
  | _ :: t => pat.isPrefixOf s || listContainsSub t pat

/-- JavaScript `s.includes(pat)`: substring containment. -/

def jsIncludes (s pat : String) : Bool :=
  listContainsSub s.data pat.data

/-- Does the string contain an upper-case ASCII letter? -/

def hasUpper (s : String) : Bool :=
  s.data.any (fun c => decide (65 ≤ c.toNat ∧ c.toNat ≤ 90))

/-- One row of `information_schema.COLUMNS` as consumed by
`classifyTableIntelligently` (only the fields the classifier reads). -/

structure CatalogColumn where
  COLUMN_NAME : String
  DATA_TYPE : String
  COLUMN_KEY : String
  EXTRA : String
deriving DecidableEq

/-- The `analysis` record produced by `classifyTableIntelligently`. -/

structure TableAnalysisRec where
  tableType : String
  confidence : ℚ
  userColumns : List String
  timeColumns : List String
  behaviorColumns : List String
  dimensionColumns : List String
  metricColumns : List String
  identifierColumns : List String
  isFactTable : Bool
  isDimensionTable : Bool
  isUserTable : Bool
  isEventTable : Bool
  isLookupTable : Bool
deriving DecidableEq

def userKeywords : List String := ["user", "customer", "account", "person", "member", "client"]

def timeNameKeywords : List String := ["created", "updated", "modified", "deleted", "time", "date"]

def behaviorKeywords : List String := ["action", "event", "activity", "status", "type", "category", "state"]

def metricKeywords : List String := ["count", "amount", "total", "sum", "avg", "price", "cost", "revenue", "quantity"]

def dimensionKeywords : List String := ["name", "title", "description", "label", "category"]

/-- Predicate for the identifier push: the lower-cased column name contains
`"id"` and the column is a primary key or auto-increment column. -/

def isIdentifierCol (c : CatalogColumn) : Bool :=
  jsIncludes (strToLower c.COLUMN_NAME) "id" &&
    (c.COLUMN_KEY == "PRI" || jsIncludes c.EXTRA "auto_increment")

def isUserCol (c : CatalogColumn) : Bool :=
  userKeywords.any (fun k => jsIncludes (strToLower c.COLUMN_NAME) k)

def isTimeCol (c : CatalogColumn) : Bool :=
  jsIncludes (strToLower c.DATA_TYPE) "timestamp" ||
  jsIncludes (strToLower c.DATA_TYPE) "datetime" ||
  jsIncludes (strToLower c.DATA_TYPE) "date" ||
  timeNameKeywords.any (fun k => jsIncludes (strToLower c.COLUMN_NAME) k)

def isBehaviorCol (c : CatalogColumn) : Bool :=
  behaviorKeywords.any (fun k => jsIncludes (strToLower c.COLUMN_NAME) k)

def isMetricCol (c : CatalogColumn) : Bool :=
  metricKeywords.any (fun k => jsIncludes (strToLower c.COLUMN_NAME) k)

def isDimensionCol (c : CatalogColumn) : Bool :=
  dimensionKeywords.any (fun k => jsIncludes (strToLower c.COLUMN_NAME) k)

/-- `classifyTableIntelligently(tableName, columns, sampleData, focusArea)`:
column-role classification followed by the ordered role cascade.  `sampleData`
rows are opaque to the classifier (only their count is read), hence the type
parameter. -/

def classifyTableIntelligently {α : Type} (tableName : String)
    (columns : List CatalogColumn) (sampleData : List α) (focusArea : String) :
    TableAnalysisRec :=
  let base : TableAnalysisRec :=
    { tableType := "unknown"
      confidence := 0
      userColumns := (columns.filter isUserCol).map (·.COLUMN_NAME)
      timeColumns := (columns.filter isTimeCol).map (·.COLUMN_NAME)
      behaviorColumns := (columns.filter isBehaviorCol).map (·.COLUMN_NAME)
      dimensionColumns := (columns.filter isDimensionCol).map (·.COLUMN_NAME)
      metricColumns := (columns.filter isMetricCol).map (·.COLUMN_NAME)
      identifierColumns := (columns.filter isIdentifierCol).map (·.COLUMN_NAME)
      isFactTable := false
      isDimensionTable := false
      isUserTable := false
      isEventTable := false
      isLookupTable := false }
  if 0 < base.userColumns.length ∧ base.timeColumns.length = 0 then
    { base with tableType := "user_dimension", isUserTable := true,
                isDimensionTable := true, confidence := 9/10 }
  else if 0 < base.userColumns.length ∧ 0 < base.timeColumns.length ∧
      0 < base.behaviorColumns.length then
    { base with tableType := "user_events", isEventTable := true,
                isFactTable := true, confidence := 95/100 }
  else if base.dimensionColumns.length < base.metricColumns.length then
    { base with tableType := "fact_table", isFactTable := true, confidence := 8/10 }
  else if 0 < base.dimensionColumns.length ∧ columns.length < 10 then
    { base with tableType := "dimension_table", isDimensionTable := true,
                confidence := 7/10 }
  else if columns.length < 5 ∧ sampleData.length < 100 then
    { base with tableType := "lookup_table", isLookupTable := true, confidence := 6/10 }
  else
    base

/-- The per-table fragment of `analyzeSingleDatabase`: at detail level
`summary` neither the column catalog nor sample rows are fetched, so the
classifier receives empty lists; `detailed` passes columns only; `full`
additionally passes the (limit-bounded) sample rows. -/

def analyzeTableAtDetail {α : Type} (detailLevel : String) (tableName : String)
    (fetchedColumns : List CatalogColumn) (fetchedSamples : List α)
    (sampleDataLimit : Nat) (focusArea : String) : TableAnalysisRec :=
  let columns := if detailLevel ≠ "summary" then fetchedColumns else []
  let sampleData := if detailLevel = "full" ∧ 0 < sampleDataLimit then fetchedSamples else []
  classifyTableIntelligently tableName columns sampleData focusArea

/-- The role cascade exactly as §4.2 of the spec words it, as a function of
the derived column-role counts, the column count and the sample-row count.
Used to state that the code's classifier follows this cascade. -/

def specRoleCascade (u t b m d ncols nsamples : Nat) : String × ℚ :=
  if 0 < u ∧ t = 0 then ("user_dimension", 9/10)
  else if 0 < u ∧ 0 < t ∧ 0 < b then ("user_events", 95/100)
  else if d < m then ("fact_table", 8/10)
  else if 0 < d ∧ ncols < 10 then ("dimension_table", 7/10)
  else if ncols < 5 ∧ nsamples < 100 then ("lookup_table", 6/10)
  else ("unknown", 0)

/-- The pagination metadata computed by `handleDiscoverAnalytics`
(`Math.ceil` on naturals is `(n + d - 1) / d`). -/

structure PaginationInfo where
  currentPage : Nat
  totalPages : Nat
  pageSize : Nat
  totalDatabases : Nat
  currentPageDatabases : Nat
  hasNextPage : Bool
  hasPreviousPage : Bool
deriving DecidableEq

/-- The pagination fragment of `handleDiscoverAnalytics`: window arithmetic,
the `slice(startIndex, endIndex)` of the target database list, and the
next/previous flags computed from the unclamped page number. -/

def computePagination (targetDatabases : List String) (page pageSize : Nat) :
    PaginationInfo × List String :=
  let totalDatabases := targetDatabases.length
  let totalPages := (totalDatabases + pageSize - 1) / pageSize
  let startIndex := (page - 1) * pageSize
  let endIndex := min (startIndex + pageSize) totalDatabases
  let pagedDatabases := (targetDatabases.drop startIndex).take (endIndex - startIndex)
  ({ currentPage := page
     totalPages := totalPages
     pageSize := pageSize
     totalDatabases := totalDatabases
     currentPageDatabases := pagedDatabases.length
     hasNextPage := decide (page < totalPages)
     hasPreviousPage := decide (1 < page) }, pagedDatabases)

/-- JavaScript `ToInt32` coercion (`hash & hash` and the implicit coercion of
`<<`): reduce mod 2^32 and reinterpret as a signed 32-bit value. -/

def toInt32 (x : Int) : Int :=
  let m := x % 4294967296
  if m < 2147483648 then m else m - 4294967296

/-- One step of `hashString`'s loop: `hash = ((hash << 5) - hash) + char`
followed by `hash = hash & hash`. -/

def hashStep (h : Int) (c : Char) : Int :=
  toInt32 (toInt32 (h * 32) - h + c.toNat)

/-- `hashString(str)`: the 32-bit rolling hash, then
`Math.abs(hash).toString(16)`. -/

def hashString (str : String) : String :=
  String.mk (Nat.toDigits 16 (str.data.foldl hashStep 0).natAbs)

/-- JavaScript `s.endsWith(pat)` (character model). -/

def jsEndsWith (s pat : String) : Bool :=
  pat.data.reverse.isPrefixOf s.data.reverse

/-- `generateCacheKey(operation, database, query)`: the read-side lookup key,
hashing the FULL query string. -/

def generateCacheKey (operation : String) (database query : Option String) : String :=
  (match database with
   | some db => db ++ "_"
   | none => "") ++ operation ++
  (match query with
   | some q => "_" ++ hashString q
   | none => "")

/-- `generateCacheFileName(operation, database, query)`: the write-side file
name, hashing only `query.substring(0, 50)`; the timestamp component is
passed in already formatted. -/

def generateCacheFileName (timestamp operation : String) (database query : Option String) :
    String :=
  timestamp ++ "_" ++
  (match database with
   | some db => db ++ "_"
   | none => "") ++ operation ++
  (match query with
   | some q => "_" ++ hashString (String.mk (q.data.take 50))
   | none => "") ++ ".json"

/-- One file of a cache sub-directory: name, filesystem mtime (ms since
epoch), and the stored `data` payload. -/

structure CacheFile (α : Type) where
  name : String
  mtimeMs : Nat
  payload : α
deriving DecidableEq

/-- `saveToCache`: no-op when disabled or when the serialized content (whose
size is passed explicitly) exceeds the configured maximum; otherwise appends
a fresh timestamped file and returns its name.  Never overwrites. -/

def saveToCache {α : Type} (st : List (CacheFile α)) (enabled : Bool) (nowMs : Nat)
    (timestamp : String) (contentSize maxFileSize : Nat) (payload : α)
    (operation : String) (database query : Option String) :
    List (CacheFile α) × Option String :=
  if enabled = false then (st, none)
  else if maxFileSize < contentSize then (st, none)
  else
    let fileName := generateCacheFileName timestamp operation database query
    (st ++ [⟨fileName, nowMs, payload⟩], some fileName)

/-- Insertion step of the (stable) ascending name sort modelling
JavaScript's `Array.prototype.sort()` on file names. -/

def insertByName {α : Type} (x : CacheFile α) : List (CacheFile α) → List (CacheFile α)
  | [] => [x]
  | y :: ys => if x.name < y.name ∨ x.name = y.name then x :: y :: ys else y :: insertByName x ys

def sortByNameAsc {α : Type} (l : List (CacheFile α)) : List (CacheFile α) :=
  l.foldr insertByName []

/-- `readFromCache`: misses when disabled or when the directory is absent;
otherwise filters files whose name contains the cache key and ends in
`.json`, takes the lexicographically newest, and serves it only within the
TTL.  The code computes `ageHours = (now - mtime) / 3600000` (exact real
division) and misses when `ageHours > ttlHours`; over exact arithmetic this
is `ttlHours * 3600000 < now - mtime`, which is how the check is written
here (the server only ever passes the integer TTLs 1, 2 and 4). -/

def readFromCache {α : Type} (st : List (CacheFile α)) (enabled dirExists : Bool)
    (nowMs : Nat) (operation : String) (database query : Option String)
    (ttlHours : Nat) : Option α :=
  if enabled = false then none
  else if dirExists = false then none
  else
    let cacheKey := generateCacheKey operation database query
    let matchingFiles := st.filter (fun f => jsIncludes f.name cacheKey && jsEndsWith f.name ".json")
    match (sortByNameAsc matchingFiles).reverse with
    | [] => none
    | latestFile :: _ =>
      if (ttlHours * 3600000 : Int) < (nowMs : Int) - (latestFile.mtimeMs : Int) then none
      else some latestFile.payload

/-- JavaScript `s.trim()` (character model: strip whitespace at both ends). -/

def jsTrim (s : String) : String :=
  ⟨((s.data.dropWhile Char.isWhitespace).reverse.dropWhile Char.isWhitespace).reverse⟩

/-- JavaScript `s.startsWith(pat)` (character model). -/

def jsStartsWith (s pat : String) : Bool :=
  pat.data.isPrefixOf s.data

/-- `isReadOnlyQuery(query)`: the trimmed, lower-cased statement must start
with one of the read-only keywords. -/

def isReadOnlyQuery (query : String) : Bool :=
  let trimmed := strToLower (jsTrim query)
  ["select", "show", "describe", "explain", "desc"].any
    (fun k => jsStartsWith trimmed k)

/-- The rejection reasons of `handleQuery` that occur before any database or
cache I/O: the zod schema's minimum-length check (`"Query cannot be empty"`),
the read-only guard, and the 10,000-character limit. -/

inductive QueryReject where
  | emptyQuery : QueryReject
  | notReadOnly : QueryReject
  | queryTooLong : QueryReject
deriving DecidableEq

/-- The validation sequence at the top of `handleQuery`, in source order:
schema parse (query non-empty), then `isReadOnlyQuery`, then the length
limit. -/

def validateQuery (query : String) : Option QueryReject :=
  if query.length = 0 then some QueryReject.emptyQuery
  else if isReadOnlyQuery query = false then some QueryReject.notReadOnly
  else if 10000 < query.length then some QueryReject.queryTooLong
  else none

/-- `handleQuery`: validation first; only on success is the executor invoked
and the result written to the query cache.  `execute` stands for the
database round-trip, `st` for the day's query-cache directory. -/

def handleQuery {α : Type} (query : String) (st : List (CacheFile α))
    (execute : String → α) (enabled : Bool) (nowMs : Nat) (timestamp : String)
    (contentSize maxFileSize : Nat) (database : Option String) :
    Except QueryReject α × List (CacheFile α) :=
  match validateQuery query with
  | some e => (Except.error e, st)
  | none =>
    let rows := execute query
    (Except.ok rows,
     (saveToCache st enabled nowMs timestamp contentSize maxFileSize rows
        "query" database (some query)).1)

/-- One row of the `DESCRIBE` output as used by `findCommonColumns` (only the
`Field` name is read there). -/

structure DescribedColumn where
  Field : String
deriving DecidableEq

/-- One foreign-key row of `tableInfo[t].foreignKeys`. -/

structure FkRow where
  COLUMN_NAME : String
  REFERENCED_TABLE_NAME : String
  REFERENCED_COLUMN_NAME : String
deriving DecidableEq

/-- The slice of `tableInfo[t]` that `suggestOptimalJoins` reads. -/

structure TableInfoRec where
  columns : List DescribedColumn
  foreignKeys : List FkRow
deriving DecidableEq

/-- A join suggestion; `commonColumns` is only present on inferred
suggestions, as in the source. -/

structure JoinSuggestion where
  fromTable : String
  toTable : String
  joinType : String
  condition : String
  relationship : String
  commonColumns : Option (List String)
deriving DecidableEq

/-- `findCommonColumns(cols1, cols2)`: lower-cased names of the first table,
in its column order, kept when the second table also has that lower-cased
name. -/

def findCommonColumns (cols1 cols2 : List DescribedColumn) : List String :=
  let names1 := cols1.map (fun c => strToLower c.Field)
  let names2 := cols2.map (fun c => strToLower c.Field)
  names1.filter (fun n => names2.contains n)

/-- The body of `suggestOptimalJoins`' inner loop for one (ordered) pair:
forward FK first, then backward FK, then the inferred common-column join,
else nothing. -/

def suggestPair (tableInfo : String → TableInfoRec) (table1 table2 : String) :
    Option JoinSuggestion :=
  match (tableInfo table1).foreignKeys.find?
      (fun fk => fk.REFERENCED_TABLE_NAME == table2) with
  | some fk1 =>
    some { fromTable := table1, toTable := table2, joinType := "INNER JOIN",
           condition := table1 ++ "." ++ fk1.COLUMN_NAME ++ " = "
             ++ table2 ++ "." ++ fk1.REFERENCED_COLUMN_NAME,
           relationship := "foreign_key", commonColumns := none }
  | none =>
    match (tableInfo table2).foreignKeys.find?
        (fun fk => fk.REFERENCED_TABLE_NAME == table1) with
    | some fk2 =>
      some { fromTable := table2, toTable := table1, joinType := "INNER JOIN",
             condition := table2 ++ "." ++ fk2.COLUMN_NAME ++ " = "
               ++ table1 ++ "." ++ fk2.REFERENCED_COLUMN_NAME,
             relationship := "foreign_key", commonColumns := none }
    | none =>
      let commonCols := findCommonColumns (tableInfo table1).columns (tableInfo table2).columns
      if 0 < commonCols.length then
        some { fromTable := table1, toTable := table2, joinType := "INNER JOIN",
               condition := String.intercalate " AND "
                 (commonCols.map (fun col => table1 ++ "." ++ col ++ " = " ++ table2 ++ "." ++ col)),
               relationship := "inferred", commonColumns := some commonCols }
      else none

/-- The ordered pairs `(tables[i], tables[j])`, `i < j`, in the nested-loop
order of `suggestOptimalJoins`. -/

def orderedPairs : List String → List (String × String)
  | [] => []
  | t :: ts => (ts.map (fun u => (t, u))) ++ orderedPairs ts

/-- `suggestOptimalJoins(tableInfo, tables)`. -/

def suggestOptimalJoins (tableInfo : String → TableInfoRec) (tables : List String) :
    List JoinSuggestion :=
  (orderedPairs tables).filterMap (fun p => suggestPair tableInfo p.1 p.2)

/-- The concrete two-table scenario used by the C8 witness: `orders` has a
foreign key `customer_id → customers.id`. -/

def ordersCustomersInfo : String → TableInfoRec := fun t =>
  if t == "orders" then
    { columns := [⟨"id"⟩, ⟨"customer_id"⟩, ⟨"total"⟩],
      foreignKeys := [⟨"customer_id", "customers", "id"⟩] }
  else if t == "customers" then
    { columns := [⟨"id"⟩, ⟨"name"⟩], foreignKeys := [] }
  else
    { columns := [], foreignKeys := [] }

/-- The concrete scenario for the C10 counterexample: table `a` spells the
column `UserId`, table `b` spells it `userid`; no foreign keys. -/

def mixedCaseInfo : String → TableInfoRec := fun t =>
  if t == "a" then { columns := [⟨"UserId"⟩], foreignKeys := [] }
  else if t == "b" then { columns := [⟨"userid"⟩], foreignKeys := [] }
  else { columns := [], foreignKeys := [] }

/-- One foreign-key edge row as consumed by `buildRelationshipGraph`
(aliases from the overview query: `from_table`, `from_column`, `to_table`,
`to_column`). -/

structure FkEdge where
  from_table : String
  from_column : String
  to_table : String
  to_column : String
deriving DecidableEq

/-- An entry of a node's `references` or `referencedBy` list. -/

structure RefEntry where
  table : String
  column : String
  through : String
deriving DecidableEq

/-- A node of the relationship graph. -/

structure GraphNode where
  references : List RefEntry
  referencedBy : List RefEntry
deriving DecidableEq

/-- The graph object: key/value pairs in insertion order, as a JavaScript
object with string keys. -/

abbrev RelGraph := List (String × GraphNode)

/-- `graph[t]` (property lookup). -/

def findNode (g : RelGraph) (t : String) : Option GraphNode :=
  (g.find? (fun p => p.1 == t)).map (·.2)

/-- `if (!graph[t]) graph[t] = { references: [], referencedBy: [] }`:
creates the missing node at the end (JS insertion order). -/

def ensureNode (g : RelGraph) (t : String) : RelGraph :=
  match findNode g t with
  | some _ => g
  | none => g ++ [(t, ⟨[], []⟩)]

/-- Apply `f` to the value stored under key `t` (mutation of one property of
the JS object). -/

def updAt (t : String) (f : GraphNode → GraphNode) (p : String × GraphNode) :
    String × GraphNode :=
  if p.1 == t then (p.1, f p.2) else p

/-- `graph[t].references.push(e)`. -/

def pushReference (g : RelGraph) (t : String) (e : RefEntry) : RelGraph :=
  g.map (updAt t (fun n => ⟨n.references ++ [e], n.referencedBy⟩))

/-- `graph[t].referencedBy.push(e)`. -/

def pushReferencedBy (g : RelGraph) (t : String) (e : RefEntry) : RelGraph :=
  g.map (updAt t (fun n => ⟨n.references, n.referencedBy ++ [e]⟩))

/-- The `references` entry produced by an edge. -/

def refEntryOf (r : FkEdge) : RefEntry :=
  ⟨r.to_table, r.to_column, r.from_column⟩

/-- The `referencedBy` entry produced by an edge. -/

def refByEntryOf (r : FkEdge) : RefEntry :=
  ⟨r.from_table, r.from_column, r.to_column⟩

/-- The loop body of `buildRelationshipGraph` for one edge. -/

def addRelationship (g : RelGraph) (r : FkEdge) : RelGraph :=
  let g1 := ensureNode g r.from_table
  let g2 := ensureNode g1 r.to_table
  let g3 := pushReference g2 r.from_table (refEntryOf r)
  pushReferencedBy g3 r.to_table (refByEntryOf r)

/-- `buildRelationshipGraph(relationships)`. -/

def buildRelationshipGraph (relationships : List FkEdge) : RelGraph :=
  relationships.foldl addRelationship []

/-- The `references` list an edge list owes to table `t`, in input order. -/

def refsOf (t : String) (rels : List FkEdge) : List RefEntry :=
  (rels.filter (fun r => r.from_table == t)).map refEntryOf

/-- The `referencedBy` list an edge list owes to table `t`, in input order. -/

def refbysOf (t : String) (rels : List FkEdge) : List RefEntry :=
  (rels.filter (fun r => r.to_table == t)).map refByEntryOf

/-- Does the edge have `t` as one of its endpoint tables? -/

def touches (t : String) (r : FkEdge) : Bool :=
  r.from_table == t || r.to_table == t

/-- The keys of the graph object. -/

def keysOf (g : RelGraph) : List String := g.map (·.1)

/-- The total number of forward (`references`) entries in the graph. -/

def totalReferences (g : RelGraph) : Nat :=
  (g.map (fun p => p.2.references.length)).sum

/-- The slice of a per-database analysis read by
`analyzeCrossDatabasePatterns`: the table-name keys of `databases[db].tables`
and the `summary.userTables` / `summary.eventTables` counts. -/

structure DbView where
  tables : List String
  userTables : Nat
  eventTables : Nat
deriving DecidableEq

/-- A cross-database insight (the fields the claim is about). -/

inductive CrossInsight where
  | duplicateTables : String → List String → CrossInsight
  | distributedUserData : List String → CrossInsight
deriving DecidableEq

def isDistributedInsight : CrossInsight → Bool
  | CrossInsight.distributedUserData _ => true
  | _ => false

/-- The `tablePatterns[n]` bucket: one entry (the database name) per
occurrence of table name `n`, in database iteration order. -/

def tableInstances (dbs : List (String × DbView)) (n : String) : List String :=
  dbs.flatMap (fun p => (p.2.tables.filter (fun t => t == n)).map (fun _ => p.1))

/-- The keys of `tablePatterns` in insertion order: first occurrence order
over the databases' table lists. -/

def collectTableNames (dbs : List (String × DbView)) : List String :=
  (dbs.flatMap (fun p => p.2.tables)).foldl
    (fun acc n => if acc.contains n then acc else acc ++ [n]) []

/-- `analyzeCrossDatabasePatterns(databases)`: a `duplicate_table_structure`
insight per table name held by more than one bucket entry, then a single
`distributed_user_data` insight when more than one database has user or
event tables. -/

def analyzeCrossDatabasePatterns (dbs : List (String × DbView)) : List CrossInsight :=
  (collectTableNames dbs).filterMap (fun n =>
    let inst := tableInstances dbs n
    if 1 < inst.length then some (CrossInsight.duplicateTables n inst) else none)
  ++ (let userDatabases := (dbs.filter (fun p => 0 < p.2.userTables ∨ 0 < p.2.eventTables)).map (·.1)
      if 1 < userDatabases.length then [CrossInsight.distributedUserData userDatabases] else [])

/-- The guard in `handleDiscoverAnalytics`: cross-database analysis runs when
requested and the TARGET list (all databases, not the analyzed page) has more
than one entry; otherwise `crossDatabaseInsights` keeps its initial `[]`. -/

def discoverCrossInsights (cross : Bool) (targetDatabases : List String)
    (analyzed : List (String × DbView)) : List CrossInsight :=
  if cross = true ∧ 1 < targetDatabases.length then analyzeCrossDatabasePatterns analyzed
  else []

lemma classify_userColumns (tableName focusArea : String) {α : Type}
    (columns : List CatalogColumn) (sampleData : List α) :
    (classifyTableIntelligently tableName columns sampleData focusArea).userColumns
      = (columns.filter isUserCol).map (·.COLUMN_NAME) := by
  simp only [classifyTableIntelligently]
  split_ifs <;> rfl

lemma classify_timeColumns (tableName focusArea : String) {α : Type}
    (columns : List CatalogColumn) (sampleData : List α) :
    (classifyTableIntelligently tableName columns sampleData focusArea).timeColumns
      = (columns.filter isTimeCol).map (·.COLUMN_NAME) := by
  simp only [classifyTableIntelligently]
  split_ifs <;> rfl

lemma classify_behaviorColumns (tableName focusArea : String) {α : Type}
    (columns : List CatalogColumn) (sampleData : List α) :
    (classifyTableIntelligently tableName columns sampleData focusArea).behaviorColumns
      = (columns.filter isBehaviorCol).map (·.COLUMN_NAME) := by
  simp only [classifyTableIntelligently]
  split_ifs <;> rfl

lemma classify_metricColumns (tableName focusArea : String) {α : Type}
    (columns : List CatalogColumn) (sampleData : List α) :
    (classifyTableIntelligently tableName columns sampleData focusArea).metricColumns
      = (columns.filter isMetricCol).map (·.COLUMN_NAME) := by
  simp only [classifyTableIntelligently]
  split_ifs <;> rfl

lemma classify_dimensionColumns (tableName focusArea : String) {α : Type}
    (columns : List CatalogColumn) (sampleData : List α) :
    (classifyTableIntelligently tableName columns sampleData focusArea).dimensionColumns
      = (columns.filter isDimensionCol).map (·.COLUMN_NAME) := by
  simp only [classifyTableIntelligently]
  split_ifs <;> rfl

lemma classify_identifierColumns (tableName focusArea : String) {α : Type}
    (columns : List CatalogColumn) (sampleData : List α) :
    (classifyTableIntelligently tableName columns sampleData focusArea).identifierColumns
      = (columns.filter isIdentifierCol).map (·.COLUMN_NAME) := by
  simp only [classifyTableIntelligently]
  split_ifs <;> rfl

/-- Claim C3: the classifier is deterministic and applies the §4.2 role rules
in the fixed precedence with first match winning and the fixed confidences
(user_dimension 0.9, user_events 0.95, fact_table 0.8, dimension_table 0.7,
lookup_table 0.6, unknown 0.0); in particular a table with non-empty user,
time and behavior column sets is always `user_events`, never `fact_table`. -/

theorem classifier_precedence (tableName focusArea : String) {α : Type}
    (columns : List CatalogColumn) (sampleData : List α) :
    (classifyTableIntelligently tableName columns sampleData focusArea
       = classifyTableIntelligently tableName columns sampleData focusArea)
    ∧ ((classifyTableIntelligently tableName columns sampleData focusArea).tableType,
        (classifyTableIntelligently tableName columns sampleData focusArea).confidence)
        = specRoleCascade
            (classifyTableIntelligently tableName columns sampleData focusArea).userColumns.length
            (classifyTableIntelligently tableName columns sampleData focusArea).timeColumns.length
            (classifyTableIntelligently tableName columns sampleData focusArea).behaviorColumns.length
            (classifyTableIntelligently tableName columns sampleData focusArea).metricColumns.length
            (classifyTableIntelligently tableName columns sampleData focusArea).dimensionColumns.length
            columns.length sampleData.length
    ∧ (0 < (classifyTableIntelligently tableName columns sampleData focusArea).userColumns.length →
       0 < (classifyTableIntelligently tableName columns sampleData focusArea).timeColumns.length →
       0 < (classifyTableIntelligently tableName columns sampleData focusArea).behaviorColumns.length →
         (classifyTableIntelligently tableName columns sampleData focusArea).tableType = "user_events"
         ∧ (classifyTableIntelligently tableName columns sampleData focusArea).confidence = 95/100
         ∧ (classifyTableIntelligently tableName columns sampleData focusArea).tableType ≠ "fact_table") := by
  refine ⟨rfl, ?_, ?_⟩
  · rw [classify_userColumns, classify_timeColumns, classify_behaviorColumns,
        classify_metricColumns, classify_dimensionColumns]
    simp only [classifyTableIntelligently, specRoleCascade]
    split_ifs <;> rfl
  · rw [classify_userColumns, classify_timeColumns, classify_behaviorColumns]
    simp only [classifyTableIntelligently]
    split_ifs with h1 h2 h3 h4 h5 <;> intro hu ht hb
    · omega
    · exact ⟨rfl, rfl, show ("user_events" : String) ≠ "fact_table" by decide⟩
    · exact absurd ⟨hu, ht, hb⟩ h2
    · exact absurd ⟨hu, ht, hb⟩ h2
    · exact absurd ⟨hu, ht, hb⟩ h2
    · exact absurd ⟨hu, ht, hb⟩ h2

/-- Witness for `classifier_precedence` at a user+time+behavior table. -/

theorem classifier_precedence_witness :
    (classifyTableIntelligently "events"
        [⟨"user_id", "int", "PRI", "auto_increment"⟩,
         ⟨"created_at", "timestamp", "", ""⟩,
         ⟨"event_type", "varchar", "", ""⟩] ([] : List Unit) "general").tableType = "user_events"
    ∧ (classifyTableIntelligently "events"
        [⟨"user_id", "int", "PRI", "auto_increment"⟩,
         ⟨"created_at", "timestamp", "", ""⟩,
         ⟨"event_type", "varchar", "", ""⟩] ([] : List Unit) "general").confidence = 95/100
    ∧ (classifyTableIntelligently "events"
        [⟨"user_id", "int", "PRI", "auto_increment"⟩,
         ⟨"created_at", "timestamp", "", ""⟩,
         ⟨"event_type", "varchar", "", ""⟩] ([] : List Unit) "general").tableType ≠ "fact_table" :=
  (classifier_precedence "events" "general"
      [⟨"user_id", "int", "PRI", "auto_increment"⟩,
       ⟨"created_at", "timestamp", "", ""⟩,
       ⟨"event_type", "varchar", "", ""⟩] ([] : List Unit)).2.2
    (by decide) (by decide) (by decide)

/-- Claim C1 counterexample: at detail level `summary` the classifier does run
on empty column/sample lists, but the zero counts satisfy the lookup-table
rule (0 columns < 5 and 0 sample rows < 100), so the result is
`lookup_table` with confidence 0.6 — not `unknown` with confidence 0. -/

theorem summary_mode_not_unknown_cex :
    (analyzeTableAtDetail "summary" "orders"
        [⟨"order_id", "int", "PRI", "auto_increment"⟩,
         ⟨"customer_id", "int", "MUL", ""⟩] ([] : List Unit) 3 "general").tableType
        = "lookup_table"
    ∧ (analyzeTableAtDetail "summary" "orders"
        [⟨"order_id", "int", "PRI", "auto_increment"⟩,
         ⟨"customer_id", "int", "MUL", ""⟩] ([] : List Unit) 3 "general").confidence = 6/10
    ∧ ¬ (analyzeTableAtDetail "summary" "orders"
        [⟨"order_id", "int", "PRI", "auto_increment"⟩,
         ⟨"customer_id", "int", "MUL", ""⟩] ([] : List Unit) 3 "general").tableType = "unknown"
    ∧ ¬ (analyzeTableAtDetail "summary" "orders"
        [⟨"order_id", "int", "PRI", "auto_increment"⟩,
         ⟨"customer_id", "int", "MUL", ""⟩] ([] : List Unit) 3 "general").confidence = 0 := by
  refine ⟨rfl, rfl, by decide, ?_⟩
  show (6/10 : ℚ) ≠ 0
  norm_num

/-- Claim C1 (amended): at detail level `summary` every table's classifier
invocation receives an empty column list and an empty sample-row list, and
the resulting classification is `lookup_table` with confidence 0.6. -/

theorem summary_mode_classification (tableName focusArea : String) {α : Type}
    (fetchedColumns : List CatalogColumn) (fetchedSamples : List α) (limit : Nat) :
    analyzeTableAtDetail "summary" tableName fetchedColumns fetchedSamples limit focusArea
      = classifyTableIntelligently tableName [] ([] : List α) focusArea
    ∧ (analyzeTableAtDetail "summary" tableName fetchedColumns fetchedSamples
        limit focusArea).tableType = "lookup_table"
    ∧ (analyzeTableAtDetail "summary" tableName fetchedColumns fetchedSamples
        limit focusArea).confidence = 6/10 := by
  refine ⟨rfl, rfl, rfl⟩

/-- Claim C4 counterexample: a primary-key column whose name does not contain
`"id"` is not placed in `identifierColumns`. -/

theorem identifier_needs_id_substring_cex :
    ((⟨"code", "int", "PRI", ""⟩ : CatalogColumn).COLUMN_KEY = "PRI")
    ∧ (classifyTableIntelligently "t" [⟨"code", "int", "PRI", ""⟩]
        ([] : List Unit) "general").identifierColumns = [] := by
  refine ⟨rfl, by decide⟩

/-- Claim C4 (amended): a column lands in `identifierColumns` exactly when its
lower-cased name contains `"id"` AND it carries the primary-key flag or its
EXTRA metadata contains `auto_increment` (stated for column lists with
distinct names, as a database catalog guarantees). -/

theorem identifierColumns_characterization (tableName focusArea : String) {α : Type}
    (columns : List CatalogColumn) (sampleData : List α) (col : CatalogColumn)
    (hmem : col ∈ columns) (hnd : (columns.map (·.COLUMN_NAME)).Nodup) :
    col.COLUMN_NAME ∈ (classifyTableIntelligently tableName columns sampleData
        focusArea).identifierColumns
      ↔ (jsIncludes (strToLower col.COLUMN_NAME) "id" = true
          ∧ (col.COLUMN_KEY = "PRI" ∨ jsIncludes col.EXTRA "auto_increment" = true)) := by
  rw [classify_identifierColumns]
  constructor
  · intro h
    rw [List.mem_map] at h
    obtain ⟨c, hc, hname⟩ := h
    rw [List.mem_filter] at hc
    obtain ⟨hcmem, hp⟩ := hc
    have hceq : c = col := List.inj_on_of_nodup_map hnd hcmem hmem hname
    subst hceq
    simpa [isIdentifierCol] using hp
  · intro h
    rw [List.mem_map]
    refine ⟨col, List.mem_filter.mpr ⟨hmem, ?_⟩, rfl⟩
    simpa [isIdentifierCol] using h

/-- Witness for `identifierColumns_characterization`. -/

theorem identifierColumns_characterization_witness :
    ("user_id" : String) ∈ (classifyTableIntelligently "users"
        [⟨"user_id", "int", "PRI", ""⟩, ⟨"name", "varchar", "", ""⟩]
        ([] : List Unit) "general").identifierColumns :=
  (identifierColumns_characterization "users" "general"
      [⟨"user_id", "int", "PRI", ""⟩, ⟨"name", "varchar", "", ""⟩]
      ([] : List Unit) ⟨"user_id", "int", "PRI", ""⟩
      (by decide) (by decide)).mpr (by decide)

/-- Claim C6: `totalPages` is the ceiling of `N / pageSize` (characterised by
`N ≤ totalPages * pageSize < N + pageSize`), the analyzed subset is the slice
of the unclamped window `[(page-1)*pageSize, min(page*pageSize, N))`, the
next/previous flags come from the unclamped page number, and an out-of-range
page yields an empty analyzed set. -/

theorem discover_pagination (targetDatabases : List String) (page pageSize : Nat)
    (hpage : 1 ≤ page) (hsize : 1 ≤ pageSize) :
    (targetDatabases.length ≤ (computePagination targetDatabases page pageSize).1.totalPages * pageSize
      ∧ (computePagination targetDatabases page pageSize).1.totalPages * pageSize
          < targetDatabases.length + pageSize)
    ∧ ((computePagination targetDatabases page pageSize).1.hasNextPage = true
        ↔ page < (computePagination targetDatabases page pageSize).1.totalPages)
    ∧ ((computePagination targetDatabases page pageSize).1.hasPreviousPage = true
        ↔ 1 < page)
    ∧ (computePagination targetDatabases page pageSize).2
        = (targetDatabases.drop ((page - 1) * pageSize)).take
            (min (page * pageSize) targetDatabases.length - (page - 1) * pageSize)
    ∧ (targetDatabases.length ≤ (page - 1) * pageSize →
        (computePagination targetDatabases page pageSize).2 = []) := by
  have hmul : (page - 1) * pageSize + pageSize = page * pageSize := by
    have h1 : page - 1 + 1 = page := Nat.succ_pred_eq_of_pos hpage
    calc (page - 1) * pageSize + pageSize = (page - 1 + 1) * pageSize := by ring
    _ = page * pageSize := by rw [h1]
  refine ⟨?_, ?_, ?_, ?_, ?_⟩
  · have hdm := Nat.div_add_mod (targetDatabases.length + pageSize - 1) pageSize
    have hlt : (targetDatabases.length + pageSize - 1) % pageSize < pageSize :=
      Nat.mod_lt _ (by omega)
    have hcomm : ((targetDatabases.length + pageSize - 1) / pageSize) * pageSize
        = pageSize * ((targetDatabases.length + pageSize - 1) / pageSize) := Nat.mul_comm _ _
    simp only [computePagination]
    constructor <;> omega
  · simp [computePagination]
  · simp [computePagination]
  · simp only [computePagination, hmul]
  · intro hout
    simp only [computePagination]
    have h1 : min ((page - 1) * pageSize + pageSize) targetDatabases.length
        - (page - 1) * pageSize = 0 := by omega
    rw [h1, List.take_zero]

/-- Witness for `discover_pagination`: the N = 12, pageSize = 5 instance from
the spec (page 1 analyzes indices 0..4, page 3 analyzes indices 10..11). -/

theorem discover_pagination_witness :
    ((computePagination
        ["d01", "d02", "d03", "d04", "d05", "d06", "d07", "d08", "d09", "d10",
         "d11", "d12"] 1 5).1.totalPages = 3)
    ∧ ((computePagination
        ["d01", "d02", "d03", "d04", "d05", "d06", "d07", "d08", "d09", "d10",
         "d11", "d12"] 1 5).2 = ["d01", "d02", "d03", "d04", "d05"])
    ∧ ((computePagination
        ["d01", "d02", "d03", "d04", "d05", "d06", "d07", "d08", "d09", "d10",
         "d11", "d12"] 1 5).1.hasPreviousPage = false)
    ∧ ((computePagination
        ["d01", "d02", "d03", "d04", "d05", "d06", "d07", "d08", "d09", "d10",
         "d11", "d12"] 1 5).1.hasNextPage = true)
    ∧ ((computePagination
        ["d01", "d02", "d03", "d04", "d05", "d06", "d07", "d08", "d09", "d10",
         "d11", "d12"] 3 5).2 = ["d11", "d12"])
    ∧ ((computePagination
        ["d01", "d02", "d03", "d04", "d05", "d06", "d07", "d08", "d09", "d10",
         "d11", "d12"] 3 5).1.hasNextPage = false) := by
  have h := discover_pagination
      ["d01", "d02", "d03", "d04", "d05", "d06", "d07", "d08", "d09", "d10",
       "d11", "d12"] 1 5 (by decide) (by decide)
  exact ⟨by decide, by decide, by decide, (h.2.1).mpr (by decide), by decide, by decide⟩

set_option maxRecDepth 100000 in

/-- Claim C2 (code-bug evidence): for a 51-character fingerprint the write
names the file with `hashString(query.substring(0, 50))` while the read
matches on `hashString(query)`, so an immediate read back within TTL misses
(first two conjuncts: the entry was written, the read returns nothing).  For
a 50-character fingerprint the intended behaviour holds: read-back within
TTL returns the payload and a read after the TTL has elapsed returns
nothing. -/

theorem cache_write_read_mismatch :
    (readFromCache
        (saveToCache ([] : List (CacheFile Nat)) true 1000 "2025-01-01T00-00-00-000Z"
          10 52428800 42 "query" (some "shop") (some (String.mk (List.replicate 51 'a')))).1
        true true 1000 "query" (some "shop") (some (String.mk (List.replicate 51 'a'))) 1
      = none)
    ∧ ((saveToCache ([] : List (CacheFile Nat)) true 1000 "2025-01-01T00-00-00-000Z"
          10 52428800 42 "query" (some "shop") (some (String.mk (List.replicate 51 'a')))).1.length
        = 1)
    ∧ (readFromCache
        (saveToCache ([] : List (CacheFile Nat)) true 1000 "2025-01-01T00-00-00-000Z"
          10 52428800 42 "query" (some "shop") (some (String.mk (List.replicate 50 'a')))).1
        true true 1000 "query" (some "shop") (some (String.mk (List.replicate 50 'a'))) 1
      = some 42)
    ∧ (readFromCache
        (saveToCache ([] : List (CacheFile Nat)) true 1000 "2025-01-01T00-00-00-000Z"
          10 52428800 42 "query" (some "shop") (some (String.mk (List.replicate 50 'a')))).1
        true true 3700000 "query" (some "shop") (some (String.mk (List.replicate 50 'a'))) 1
      = none) := by
  refine ⟨by decide, by decide, by decide, by decide⟩

/-- Claim C7 counterexample: the empty query's trimmed, lower-cased form does
not start with any read-only keyword, yet `handleQuery` rejects it with the
schema's empty-query error (zod `min(1)`), not with `NotReadOnly`. -/

theorem empty_query_rejection_cex :
    isReadOnlyQuery "" = false
    ∧ (handleQuery "" ([] : List (CacheFile Nat)) (fun _ => 0) true 0
        "2025-01-01T00-00-00-000Z" 10 100 none).1 = Except.error QueryReject.emptyQuery
    ∧ QueryReject.emptyQuery ≠ QueryReject.notReadOnly := by
  refine ⟨rfl, rfl, by decide⟩

/-- Claim C7 (amended): for every NON-EMPTY query string, `handleQuery`
rejects with `NotReadOnly` exactly when the trimmed, lower-cased statement
does not start with one of {select, show, describe, explain, desc}; a
read-only query is rejected with `QueryTooLong` exactly when it exceeds
10,000 characters; and in every rejection case no executor call is observable
and the cache is returned unchanged.  (The empty query is instead rejected by
the schema's minimum-length validation before the read-only check.) -/

theorem query_validation {α : Type} (query : String) (hq : 1 ≤ query.length)
    (st : List (CacheFile α)) (execute : String → α) (enabled : Bool)
    (nowMs : Nat) (timestamp : String) (contentSize maxFileSize : Nat)
    (database : Option String) :
    ((handleQuery query st execute enabled nowMs timestamp contentSize maxFileSize database).1
        = Except.error QueryReject.notReadOnly ↔ isReadOnlyQuery query = false)
    ∧ (isReadOnlyQuery query = true →
        ((handleQuery query st execute enabled nowMs timestamp contentSize maxFileSize database).1
            = Except.error QueryReject.queryTooLong ↔ 10000 < query.length))
    ∧ (∀ e, validateQuery query = some e →
        handleQuery query st execute enabled nowMs timestamp contentSize maxFileSize database
          = (Except.error e, st)) := by
  have hq0 : ¬ query.length = 0 := by omega
  refine ⟨?_, ?_, ?_⟩
  · cases hro : isReadOnlyQuery query
    · simp [handleQuery, validateQuery, hq0, hro]
    · by_cases hlen : 10000 < query.length
      · simp [handleQuery, validateQuery, hq0, hro, hlen]
      · simp [handleQuery, validateQuery, hq0, hro, hlen]
  · intro hro
    by_cases hlen : 10000 < query.length
    · simp [handleQuery, validateQuery, hq0, hro, hlen]
    · simp [handleQuery, validateQuery, hq0, hro, hlen]
  · intro e he
    simp [handleQuery, he]

/-- Witness for `query_validation`: `DROP TABLE x` is rejected as
not-read-only with the cache state unchanged. -/

theorem query_validation_witness :
    (handleQuery "DROP TABLE x" ([] : List (CacheFile Nat)) (fun _ => 0) true 0
        "2025-01-01T00-00-00-000Z" 10 100 none).1 = Except.error QueryReject.notReadOnly
    ∧ handleQuery "DROP TABLE x" ([] : List (CacheFile Nat)) (fun _ => 0) true 0
        "2025-01-01T00-00-00-000Z" 10 100 none
      = (Except.error QueryReject.notReadOnly, []) := by
  have h := query_validation (α := Nat) "DROP TABLE x" (by decide) [] (fun _ => 0) true 0
      "2025-01-01T00-00-00-000Z" 10 100 none
  exact ⟨(h.1).mpr (by decide), h.2.2 QueryReject.notReadOnly (by decide)⟩

/-- Claim C8: per unordered pair, a forward foreign key wins and yields the
single `foreign_key` INNER JOIN suggestion; with no forward FK a backward FK
yields the single reversed `foreign_key` suggestion; with no FK at all a
non-empty case-insensitive column intersection yields the single `inferred`
suggestion whose condition AND-joins the equalities over all common columns;
and a pair with neither yields no suggestion. -/

theorem join_suggestions (tableInfo : String → TableInfoRec) (table1 table2 : String) :
    ((∃ fk ∈ (tableInfo table1).foreignKeys, fk.REFERENCED_TABLE_NAME = table2) →
      ∃ fk, fk ∈ (tableInfo table1).foreignKeys ∧ fk.REFERENCED_TABLE_NAME = table2 ∧
        suggestPair tableInfo table1 table2
          = some { fromTable := table1, toTable := table2, joinType := "INNER JOIN",
                   condition := table1 ++ "." ++ fk.COLUMN_NAME ++ " = "
                     ++ table2 ++ "." ++ fk.REFERENCED_COLUMN_NAME,
                   relationship := "foreign_key", commonColumns := none })
    ∧ ((∀ fk ∈ (tableInfo table1).foreignKeys, fk.REFERENCED_TABLE_NAME ≠ table2) →
       (∃ fk ∈ (tableInfo table2).foreignKeys, fk.REFERENCED_TABLE_NAME = table1) →
      ∃ fk, fk ∈ (tableInfo table2).foreignKeys ∧ fk.REFERENCED_TABLE_NAME = table1 ∧
        suggestPair tableInfo table1 table2
          = some { fromTable := table2, toTable := table1, joinType := "INNER JOIN",
                   condition := table2 ++ "." ++ fk.COLUMN_NAME ++ " = "
                     ++ table1 ++ "." ++ fk.REFERENCED_COLUMN_NAME,
                   relationship := "foreign_key", commonColumns := none })
    ∧ ((∀ fk ∈ (tableInfo table1).foreignKeys, fk.REFERENCED_TABLE_NAME ≠ table2) →
       (∀ fk ∈ (tableInfo table2).foreignKeys, fk.REFERENCED_TABLE_NAME ≠ table1) →
       findCommonColumns (tableInfo table1).columns (tableInfo table2).columns ≠ [] →
        suggestPair tableInfo table1 table2
          = some { fromTable := table1, toTable := table2, joinType := "INNER JOIN",
                   condition := String.intercalate " AND "
                     ((findCommonColumns (tableInfo table1).columns (tableInfo table2).columns).map
                       (fun col => table1 ++ "." ++ col ++ " = " ++ table2 ++ "." ++ col)),
                   relationship := "inferred",
                   commonColumns :=
                     some (findCommonColumns (tableInfo table1).columns (tableInfo table2).columns) })
    ∧ ((∀ fk ∈ (tableInfo table1).foreignKeys, fk.REFERENCED_TABLE_NAME ≠ table2) →
       (∀ fk ∈ (tableInfo table2).foreignKeys, fk.REFERENCED_TABLE_NAME ≠ table1) →
       findCommonColumns (tableInfo table1).columns (tableInfo table2).columns = [] →
        suggestPair tableInfo table1 table2 = none) := by
  refine ⟨?_, ?_, ?_, ?_⟩
  · intro hfk
    have hsome : ((tableInfo table1).foreignKeys.find?
        (fun fk => fk.REFERENCED_TABLE_NAME == table2)).isSome := by
      rw [List.find?_isSome]
      obtain ⟨fk, hmem, heq⟩ := hfk
      exact ⟨fk, hmem, by simp [heq]⟩
    obtain ⟨fk1, hfind⟩ := Option.isSome_iff_exists.mp hsome
    refine ⟨fk1, List.mem_of_find?_eq_some hfind, ?_, ?_⟩
    · have := List.find?_some hfind
      simpa using this
    · simp only [suggestPair, hfind]
  · intro hno1 hfk
    have hnone : (tableInfo table1).foreignKeys.find?
        (fun fk => fk.REFERENCED_TABLE_NAME == table2) = none := by
      rw [List.find?_eq_none]
      intro fk hmem
      simpa using hno1 fk hmem
    have hsome : ((tableInfo table2).foreignKeys.find?
        (fun fk => fk.REFERENCED_TABLE_NAME == table1)).isSome := by
      rw [List.find?_isSome]
      obtain ⟨fk, hmem, heq⟩ := hfk
      exact ⟨fk, hmem, by simp [heq]⟩
    obtain ⟨fk2, hfind⟩ := Option.isSome_iff_exists.mp hsome
    refine ⟨fk2, List.mem_of_find?_eq_some hfind, ?_, ?_⟩
    · have := List.find?_some hfind
      simpa using this
    · simp only [suggestPair, hnone, hfind]
  · intro hno1 hno2 hcc
    have hnone1 : (tableInfo table1).foreignKeys.find?
        (fun fk => fk.REFERENCED_TABLE_NAME == table2) = none := by
      rw [List.find?_eq_none]
      intro fk hmem
      simpa using hno1 fk hmem
    have hnone2 : (tableInfo table2).foreignKeys.find?
        (fun fk => fk.REFERENCED_TABLE_NAME == table1) = none := by
      rw [List.find?_eq_none]
      intro fk hmem
      simpa using hno2 fk hmem
    have hlen : 0 < (findCommonColumns (tableInfo table1).columns (tableInfo table2).columns).length :=
      List.length_pos.mpr hcc
    simp only [suggestPair, hnone1, hnone2, if_pos hlen]
  · intro hno1 hno2 hcc
    have hnone1 : (tableInfo table1).foreignKeys.find?
        (fun fk => fk.REFERENCED_TABLE_NAME == table2) = none := by
      rw [List.find?_eq_none]
      intro fk hmem
      simpa using hno1 fk hmem
    have hnone2 : (tableInfo table2).foreignKeys.find?
        (fun fk => fk.REFERENCED_TABLE_NAME == table1) = none := by
      rw [List.find?_eq_none]
      intro fk hmem
      simpa using hno2 fk hmem
    simp only [suggestPair, hnone1, hnone2, hcc]
    simp

/-- Witness for `join_suggestions`: the orders/customers scenario produces
exactly one suggestion, the forward foreign-key INNER JOIN. -/

theorem join_suggestions_witness :
    suggestOptimalJoins ordersCustomersInfo ["orders", "customers"]
      = [{ fromTable := "orders", toTable := "customers", joinType := "INNER JOIN",
           condition := "orders.customer_id = customers.id",
           relationship := "foreign_key", commonColumns := none }]
    ∧ (∃ fk, fk ∈ (ordersCustomersInfo "orders").foreignKeys
        ∧ fk.REFERENCED_TABLE_NAME = "customers"
        ∧ suggestPair ordersCustomersInfo "orders" "customers"
          = some { fromTable := "orders", toTable := "customers", joinType := "INNER JOIN",
                   condition := "orders" ++ "." ++ fk.COLUMN_NAME ++ " = "
                     ++ "customers" ++ "." ++ fk.REFERENCED_COLUMN_NAME,
                   relationship := "foreign_key", commonColumns := none }) := by
  refine ⟨by decide, ?_⟩
  exact (join_suggestions ordersCustomersInfo "orders" "customers").1
    ⟨⟨"customer_id", "customers", "id"⟩, by decide, rfl⟩

lemma charOfNat_toNat_small : ∀ n, n < 123 → (Char.ofNat n).toNat = n := by decide

lemma asciiToLower_ne_of_upper (c : Char) (h1 : 65 ≤ c.toNat) (h2 : c.toNat ≤ 90) :
    asciiToLower c ≠ c := by
  intro heq
  rw [asciiToLower, if_pos ⟨h1, h2⟩] at heq
  have hnat := congrArg Char.toNat heq
  rw [charOfNat_toNat_small (c.toNat + 32) (by omega)] at hnat
  omega

lemma map_ne_self_of_mem {α : Type} (f : α → α) (c : α) :
    ∀ (l : List α), c ∈ l → f c ≠ c → l.map f ≠ l := by
  intro l
  induction l with
  | nil => intro hc; cases hc
  | cons a t ih =>
    intro hc hne hmap
    rw [List.map_cons, List.cons.injEq] at hmap
    cases hc with
    | head => exact hne hmap.1
    | tail _ hct => exact ih hct hne hmap.2

lemma strToLower_ne_of_hasUpper (s : String) (h : hasUpper s = true) :
    strToLower s ≠ s := by
  rw [hasUpper, List.any_eq_true] at h
  obtain ⟨c, hc, hbound⟩ := h
  have hb := of_decide_eq_true hbound
  intro heq
  have hdata : s.data.map asciiToLower = s.data := congrArg String.data heq
  exact map_ne_self_of_mem asciiToLower c s.data hc
    (asciiToLower_ne_of_upper c hb.1 hb.2) hdata

/-- Claim C10 counterexample: the common column is spelled `UserId` (contains
an upper-case letter) in table `a` and `userid` in table `b`; the inferred
condition references `userid`, which EQUALS table `b`'s actual spelling, so
the generated name does not differ from the column's spelling in both
tables. -/

theorem inferred_join_lowercase_cex :
    suggestPair mixedCaseInfo "a" "b"
      = some { fromTable := "a", toTable := "b", joinType := "INNER JOIN",
               condition := "a.userid = b.userid", relationship := "inferred",
               commonColumns := some ["userid"] }
    ∧ hasUpper "UserId" = true
    ∧ ("userid" : String) = (⟨"userid"⟩ : DescribedColumn).Field := by
  refine ⟨by decide, by decide, rfl⟩

/-- Claim C10 (amended): the inferred join condition is built from the
lower-cased column names taken from the first table's column list; for every
common column, the generated name differs from the column's actual spelling
in each table whose spelling contains an upper-case letter. -/

theorem inferred_join_lowercases_names (cols1 cols2 : List DescribedColumn)
    (c1 c2 : DescribedColumn) (h1 : c1 ∈ cols1) (h2 : c2 ∈ cols2)
    (hmatch : strToLower c1.Field = strToLower c2.Field) :
    strToLower c1.Field ∈ findCommonColumns cols1 cols2
    ∧ (hasUpper c1.Field = true → strToLower c1.Field ≠ c1.Field)
    ∧ (hasUpper c2.Field = true → strToLower c1.Field ≠ c2.Field) := by
  refine ⟨?_, ?_, ?_⟩
  · rw [findCommonColumns]
    rw [List.mem_filter]
    constructor
    · exact List.mem_map.mpr ⟨c1, h1, rfl⟩
    · have : strToLower c2.Field ∈ cols2.map (fun c => strToLower c.Field) :=
        List.mem_map.mpr ⟨c2, h2, rfl⟩
      rw [hmatch]
      exact List.elem_eq_true_of_mem this
  · exact fun h => strToLower_ne_of_hasUpper c1.Field h
  · intro h
    rw [hmatch]
    exact strToLower_ne_of_hasUpper c2.Field h

/-- Witness for `inferred_join_lowercases_names`: column spelled `UserId` in
the first table and `USERID` in the second. -/

theorem inferred_join_lowercases_names_witness :
    strToLower "UserId" ∈ findCommonColumns [⟨"UserId"⟩] [⟨"USERID"⟩]
    ∧ strToLower "UserId" ≠ "UserId"
    ∧ strToLower "UserId" ≠ "USERID" := by
  have h := inferred_join_lowercases_names [⟨"UserId"⟩] [⟨"USERID"⟩]
      ⟨"UserId"⟩ ⟨"USERID"⟩ (by decide) (by decide) (by decide)
  exact ⟨h.1, h.2.1 (by decide), h.2.2 (by decide)⟩

lemma updAt_key (t : String) (f : GraphNode → GraphNode) (p : String × GraphNode) :
    (updAt t f p).1 = p.1 := by
  unfold updAt
  split_ifs <;> rfl

lemma findNode_map_updAt (t t' : String) (f : GraphNode → GraphNode) :
    ∀ (g : RelGraph),
      findNode (g.map (updAt t f)) t'
        = if t' = t then (findNode g t').map f else findNode g t' := by
  intro g
  induction g with
  | nil => by_cases h : t' = t <;> simp [findNode, h]
  | cons p ps ih =>
    by_cases hp' : p.1 = t'
    · have h1 : ((updAt t f p).1 == t') = true := by
        rw [updAt_key]
        exact beq_iff_eq.mpr hp'
      have h2 : (p.1 == t') = true := beq_iff_eq.mpr hp'
      rw [findNode, List.map_cons,
        List.find?_cons_of_pos (p := fun q : String × GraphNode => q.1 == t') _ h1]
      by_cases htt : t' = t
      · rw [if_pos htt, findNode,
          List.find?_cons_of_pos (p := fun q : String × GraphNode => q.1 == t') _ h2]
        have hupd : updAt t f p = (p.1, f p.2) := by
          unfold updAt
          rw [if_pos (beq_iff_eq.mpr (hp'.trans htt))]
        rw [hupd]
        rfl
      · rw [if_neg htt, findNode,
          List.find?_cons_of_pos (p := fun q : String × GraphNode => q.1 == t') _ h2]
        have hupd : updAt t f p = p := by
          unfold updAt
          rw [if_neg]
          simp only [beq_iff_eq, hp']
          exact htt
        rw [hupd]
    · have h1 : ¬ ((updAt t f p).1 == t') = true := by
        rw [updAt_key]
        simp [hp']
      have h2 : ¬ (p.1 == t') = true := by simp [hp']
      rw [findNode, List.map_cons,
        List.find?_cons_of_neg (p := fun q : String × GraphNode => q.1 == t') _ h1]
      have hps : (List.find? (fun q => q.1 == t') (ps.map (updAt t f))).map (·.2)
          = findNode (ps.map (updAt t f)) t' := rfl
      rw [hps, ih]
      have hcons : findNode (p :: ps) t' = findNode ps t' := by
        rw [findNode,
          List.find?_cons_of_neg (p := fun q : String × GraphNode => q.1 == t') _ h2]
        rfl
      rw [hcons]

lemma findNode_pushReference (g : RelGraph) (t t' : String) (e : RefEntry) :
    findNode (pushReference g t e) t'
      = if t' = t then
          (findNode g t').map (fun n => ⟨n.references ++ [e], n.referencedBy⟩)
        else findNode g t' :=
  findNode_map_updAt t t' _ g

lemma findNode_pushReferencedBy (g : RelGraph) (t t' : String) (e : RefEntry) :
    findNode (pushReferencedBy g t e) t'
      = if t' = t then
          (findNode g t').map (fun n => ⟨n.references, n.referencedBy ++ [e]⟩)
        else findNode g t' :=
  findNode_map_updAt t t' _ g

lemma findNode_append_single (g : RelGraph) (t t' : String) (n : GraphNode) :
    findNode (g ++ [(t, n)]) t'
      = match findNode g t' with
        | some m => some m
        | none => if t = t' then some n else none := by
  induction g with
  | nil =>
    by_cases h : t = t'
    · simp [findNode, List.find?, h]
    · have hb : (t == t') = false := beq_false_of_ne h
      simp [findNode, List.find?, hb, h]
  | cons p ps ih =>
    by_cases h' : p.1 = t'
    · simp [findNode, List.find?, h']
    · have hb' : (p.1 == t') = false := beq_false_of_ne h'
      simp only [List.cons_append, findNode, List.find?, hb']
      exact ih

lemma findNode_ensureNode_self (g : RelGraph) (t : String) :
    findNode (ensureNode g t) t = some ((findNode g t).getD ⟨[], []⟩) := by
  rw [ensureNode]
  cases hf : findNode g t with
  | some n => simp [hf]
  | none => rw [findNode_append_single, hf]; simp

lemma findNode_ensureNode_other (g : RelGraph) (t t' : String) (hne : t' ≠ t) :
    findNode (ensureNode g t) t' = findNode g t' := by
  rw [ensureNode]
  cases hf : findNode g t with
  | some n => rfl
  | none =>
    rw [findNode_append_single]
    cases hf' : findNode g t' with
    | some m => rfl
    | none =>
      have hne' : ¬ t = t' := fun hh => hne hh.symm
      simp [hne']

lemma findNode_ensureNode (g : RelGraph) (t t' : String) :
    findNode (ensureNode g t) t'
      = if t' = t then some ((findNode g t').getD ⟨[], []⟩) else findNode g t' := by
  by_cases h : t' = t
  · rw [if_pos h, h]
    exact findNode_ensureNode_self g t
  · rw [if_neg h]
    exact findNode_ensureNode_other g t t' h

lemma refsOf_cons (t : String) (r : FkEdge) (rs : List FkEdge) :
    refsOf t (r :: rs)
      = (if r.from_table = t then [refEntryOf r] else []) ++ refsOf t rs := by
  simp only [refsOf, List.filter_cons]
  by_cases h : r.from_table = t
  · simp [h]
  · simp [h]

lemma refbysOf_cons (t : String) (r : FkEdge) (rs : List FkEdge) :
    refbysOf t (r :: rs)
      = (if r.to_table = t then [refByEntryOf r] else []) ++ refbysOf t rs := by
  simp only [refbysOf, List.filter_cons]
  by_cases h : r.to_table = t
  · simp [h]
  · simp [h]

lemma findNode_addRelationship (g : RelGraph) (r : FkEdge) (t : String) :
    findNode (addRelationship g r) t
      = if touches t r = true then
          some ⟨((findNode g t).getD ⟨[], []⟩).references
              ++ (if r.from_table = t then [refEntryOf r] else []),
            ((findNode g t).getD ⟨[], []⟩).referencedBy
              ++ (if r.to_table = t then [refByEntryOf r] else [])⟩
        else findNode g t := by
  obtain ⟨a, b, c, d⟩ := r
  simp only [addRelationship, findNode_pushReferencedBy, findNode_pushReference,
    findNode_ensureNode, touches, refEntryOf, refByEntryOf]
  by_cases hf : a = t
  · subst hf
    by_cases ht : c = a
    · subst ht
      cases hg : findNode g c <;> simp
    · have ht' : ¬ a = c := fun hh => ht hh.symm
      cases hg : findNode g a <;> simp [ht, ht']
  · by_cases ht : c = t
    · subst ht
      have hf' : ¬ c = a := fun hh => hf hh.symm
      cases hg : findNode g c <;> simp [hf, hf']
    · have hf' : ¬ t = a := fun hh => hf hh.symm
      have ht' : ¬ t = c := fun hh => ht hh.symm
      simp [hf, ht, hf', ht']

lemma findNode_foldl_addRelationship :
    ∀ (rels : List FkEdge) (g : RelGraph) (t : String),
      findNode (rels.foldl addRelationship g) t
        = match findNode g t with
          | some n => some ⟨n.references ++ refsOf t rels, n.referencedBy ++ refbysOf t rels⟩
          | none =>
            if rels.any (touches t) = true then some ⟨refsOf t rels, refbysOf t rels⟩
            else none := by
  intro rels
  induction rels with
  | nil =>
    intro g t
    cases hg : findNode g t <;> simp [refsOf, refbysOf, hg]
  | cons r rs ih =>
    intro g t
    rw [List.foldl_cons, ih (addRelationship g r) t, findNode_addRelationship]
    by_cases htc : touches t r = true
    · rw [if_pos htc]
      have hfrom2 : refsOf t (r :: rs)
          = (if r.from_table = t then [refEntryOf r] else []) ++ refsOf t rs :=
        refsOf_cons t r rs
      have hto2 : refbysOf t (r :: rs)
          = (if r.to_table = t then [refByEntryOf r] else []) ++ refbysOf t rs :=
        refbysOf_cons t r rs
      cases hg : findNode g t with
      | some n => simp [hfrom2, hto2, List.append_assoc]
      | none => simp [hfrom2, hto2, List.any_cons, htc]
    · rw [if_neg htc]
      have hf : ¬ r.from_table = t := by
        intro hh
        exact htc (by simp [touches, hh])
      have ht : ¬ r.to_table = t := by
        intro hh
        exact htc (by simp [touches, hh])
      have hfrom2 : refsOf t (r :: rs) = refsOf t rs := by
        rw [refsOf_cons, if_neg hf, List.nil_append]
      have hto2 : refbysOf t (r :: rs) = refbysOf t rs := by
        rw [refbysOf_cons, if_neg ht, List.nil_append]
      cases hg : findNode g t with
      | some n => simp [hfrom2, hto2]
      | none => simp [hfrom2, hto2, List.any_cons, htc]

/-- The full characterisation of `buildRelationshipGraph`: a table has a node
exactly when it is an endpoint of some edge, and its two lists are exactly
the per-edge entries in input order. -/

lemma findNode_buildRelationshipGraph (rels : List FkEdge) (t : String) :
    findNode (buildRelationshipGraph rels) t
      = if rels.any (touches t) = true then some ⟨refsOf t rels, refbysOf t rels⟩
        else none := by
  rw [buildRelationshipGraph, findNode_foldl_addRelationship rels [] t]
  rfl

lemma findNode_eq_none_iff (g : RelGraph) (t : String) :
    findNode g t = none ↔ t ∉ keysOf g := by
  simp only [findNode, Option.map_eq_none', List.find?_eq_none, keysOf,
    List.mem_map, beq_iff_eq]
  aesop

lemma keysOf_ensureNode (g : RelGraph) (t : String) :
    keysOf (ensureNode g t)
      = if findNode g t = none then keysOf g ++ [t] else keysOf g := by
  rw [ensureNode]
  cases hf : findNode g t with
  | some n => simp [hf]
  | none => simp [hf, keysOf]

lemma keysOf_pushReference (g : RelGraph) (t : String) (e : RefEntry) :
    keysOf (pushReference g t e) = keysOf g := by
  simp only [keysOf, pushReference, List.map_map]
  exact List.map_congr_left (fun p _ => updAt_key t _ p)

lemma keysOf_pushReferencedBy (g : RelGraph) (t : String) (e : RefEntry) :
    keysOf (pushReferencedBy g t e) = keysOf g := by
  simp only [keysOf, pushReferencedBy, List.map_map]
  exact List.map_congr_left (fun p _ => updAt_key t _ p)

lemma totalReferences_ensureNode (g : RelGraph) (t : String) :
    totalReferences (ensureNode g t) = totalReferences g := by
  rw [ensureNode]
  cases hf : findNode g t with
  | some n => rfl
  | none => simp [totalReferences]

lemma totalReferences_pushReferencedBy (g : RelGraph) (t : String) (e : RefEntry) :
    totalReferences (pushReferencedBy g t e) = totalReferences g := by
  simp only [totalReferences, pushReferencedBy, List.map_map]
  congr 1
  apply List.map_congr_left
  intro p _
  by_cases h : (p.1 == t) = true
  · simp [updAt, h]
  · simp [updAt, h]

lemma pushReference_of_not_mem (t : String) (e : RefEntry) :
    ∀ (g : RelGraph), t ∉ keysOf g → pushReference g t e = g := by
  intro g
  induction g with
  | nil => intro _; rfl
  | cons p ps ih =>
    intro h
    have hp : ¬ p.1 = t := by
      intro hh
      exact h (by simp [keysOf, hh])
    have hps : t ∉ keysOf ps := by
      intro hh
      exact h (by simp [keysOf] at hh ⊢; exact Or.inr hh)
    have hupd : updAt t (fun n => ⟨n.references ++ [e], n.referencedBy⟩) p = p := by
      unfold updAt
      rw [if_neg (by simp [hp])]
    calc pushReference (p :: ps) t e
        = updAt t _ p :: pushReference ps t e := rfl
      _ = p :: ps := by rw [hupd, ih hps]

lemma totalReferences_cons (p : String × GraphNode) (ps : RelGraph) :
    totalReferences (p :: ps) = p.2.references.length + totalReferences ps := by
  simp [totalReferences]

lemma totalReferences_pushReference_mem (t : String) (e : RefEntry) :
    ∀ (g : RelGraph), (keysOf g).Nodup → t ∈ keysOf g →
      totalReferences (pushReference g t e) = totalReferences g + 1 := by
  intro g
  induction g with
  | nil => intro _ hmem; simp [keysOf] at hmem
  | cons p ps ih =>
    intro hnd hmem
    have hk : keysOf (p :: ps) = p.1 :: keysOf ps := rfl
    rw [hk] at hnd hmem
    have hnd' : (keysOf ps).Nodup := (List.nodup_cons.mp hnd).2
    by_cases hp : p.1 = t
    · have hnot : t ∉ keysOf ps := by
        intro hmem2
        exact (List.nodup_cons.mp hnd).1 (hp ▸ hmem2)
      have hupd : updAt t (fun n => ⟨n.references ++ [e], n.referencedBy⟩) p
          = (p.1, ⟨p.2.references ++ [e], p.2.referencedBy⟩) := by
        unfold updAt
        rw [if_pos (by simp [hp])]
      calc totalReferences (pushReference (p :: ps) t e)
          = totalReferences (updAt t _ p :: pushReference ps t e) := rfl
        _ = totalReferences (updAt t _ p :: ps) := by rw [pushReference_of_not_mem t e ps hnot]
        _ = (p.2.references.length + 1) + totalReferences ps := by
            rw [hupd, totalReferences_cons]
            simp
        _ = totalReferences (p :: ps) + 1 := by rw [totalReferences_cons]; omega
    · have hmem' : t ∈ keysOf ps := by
        rcases List.mem_cons.mp hmem with h | h
        · exact absurd h.symm hp
        · exact h
      have hupd : updAt t (fun n => ⟨n.references ++ [e], n.referencedBy⟩) p = p := by
        unfold updAt
        rw [if_neg (by simp [hp])]
      calc totalReferences (pushReference (p :: ps) t e)
          = totalReferences (updAt t _ p :: pushReference ps t e) := rfl
        _ = p.2.references.length + totalReferences (pushReference ps t e) := by
            rw [hupd, totalReferences_cons]
        _ = p.2.references.length + (totalReferences ps + 1) := by rw [ih hnd' hmem']
        _ = totalReferences (p :: ps) + 1 := by rw [totalReferences_cons]; omega

lemma nodup_keysOf_ensureNode (g : RelGraph) (t : String)
    (hnd : (keysOf g).Nodup) : (keysOf (ensureNode g t)).Nodup := by
  rw [keysOf_ensureNode]
  split_ifs with h
  · have hnot : t ∉ keysOf g := (findNode_eq_none_iff g t).mp h
    simp [List.nodup_append, hnd, hnot]
  · exact hnd

lemma mem_keysOf_ensureNode_self (g : RelGraph) (t : String) :
    t ∈ keysOf (ensureNode g t) := by
  rw [keysOf_ensureNode]
  split_ifs with h
  · simp
  · by_contra h2
    exact h ((findNode_eq_none_iff g t).mpr h2)

lemma mem_keysOf_ensureNode_mono (g : RelGraph) (t t' : String)
    (h : t' ∈ keysOf g) : t' ∈ keysOf (ensureNode g t) := by
  rw [keysOf_ensureNode]
  split_ifs
  · exact List.mem_append_left _ h
  · exact h

lemma totalReferences_addRelationship (g : RelGraph) (r : FkEdge)
    (hnd : (keysOf g).Nodup) :
    totalReferences (addRelationship g r) = totalReferences g + 1
    ∧ (keysOf (addRelationship g r)).Nodup := by
  have hnd1 : (keysOf (ensureNode g r.from_table)).Nodup :=
    nodup_keysOf_ensureNode g r.from_table hnd
  have hnd2 : (keysOf (ensureNode (ensureNode g r.from_table) r.to_table)).Nodup :=
    nodup_keysOf_ensureNode _ r.to_table hnd1
  have hmem : r.from_table ∈ keysOf (ensureNode (ensureNode g r.from_table) r.to_table) :=
    mem_keysOf_ensureNode_mono _ _ _ (mem_keysOf_ensureNode_self g r.from_table)
  constructor
  · show totalReferences (pushReferencedBy (pushReference
        (ensureNode (ensureNode g r.from_table) r.to_table) r.from_table (refEntryOf r))
        r.to_table (refByEntryOf r)) = totalReferences g + 1
    rw [totalReferences_pushReferencedBy,
      totalReferences_pushReference_mem r.from_table (refEntryOf r) _ hnd2 hmem,
      totalReferences_ensureNode, totalReferences_ensureNode]
  · show (keysOf (pushReferencedBy (pushReference
        (ensureNode (ensureNode g r.from_table) r.to_table) r.from_table (refEntryOf r))
        r.to_table (refByEntryOf r))).Nodup
    rw [keysOf_pushReferencedBy, keysOf_pushReference]
    exact hnd2

lemma totalReferences_foldl :
    ∀ (rels : List FkEdge) (g : RelGraph), (keysOf g).Nodup →
      totalReferences (rels.foldl addRelationship g) = totalReferences g + rels.length
      ∧ (keysOf (rels.foldl addRelationship g)).Nodup := by
  intro rels
  induction rels with
  | nil => intro g h; exact ⟨by simp, h⟩
  | cons r rs ih =>
    intro g h
    rw [List.foldl_cons]
    obtain ⟨h1, h2⟩ := totalReferences_addRelationship g r h
    obtain ⟨h3, h4⟩ := ih (addRelationship g r) h2
    refine ⟨?_, h4⟩
    rw [h3, h1]
    simp
    omega

lemma totalReferences_buildRelationshipGraph (rels : List FkEdge) :
    totalReferences (buildRelationshipGraph rels) = rels.length := by
  have h := (totalReferences_foldl rels [] (by simp [keysOf])).1
  simpa [totalReferences, buildRelationshipGraph] using h

/-- Claim C5: for every input edge (A,colA)→(B,colB) the built graph has an
entry in `graph[A].references` pointing to B and a mirrored entry in
`graph[B].referencedBy` pointing to A; the total number of forward entries
equals the number of input edges (no edge dropped); a self-referencing edge
yields entries in both lists of the same node; and each node's lists are
exactly the per-edge entries in input order. -/

theorem relationship_graph_invariant (rels : List FkEdge) :
    (∀ r ∈ rels, ∃ n, findNode (buildRelationshipGraph rels) r.from_table = some n
        ∧ refEntryOf r ∈ n.references)
    ∧ (∀ r ∈ rels, ∃ n, findNode (buildRelationshipGraph rels) r.to_table = some n
        ∧ refByEntryOf r ∈ n.referencedBy)
    ∧ totalReferences (buildRelationshipGraph rels) = rels.length
    ∧ (∀ r ∈ rels, r.from_table = r.to_table →
        ∃ n, findNode (buildRelationshipGraph rels) r.from_table = some n
          ∧ refEntryOf r ∈ n.references ∧ refByEntryOf r ∈ n.referencedBy)
    ∧ (∀ t n, findNode (buildRelationshipGraph rels) t = some n →
        n.references = refsOf t rels ∧ n.referencedBy = refbysOf t rels) := by
  refine ⟨?_, ?_, totalReferences_buildRelationshipGraph rels, ?_, ?_⟩
  · intro r hr
    rw [findNode_buildRelationshipGraph]
    have hany : rels.any (touches r.from_table) = true :=
      List.any_eq_true.mpr ⟨r, hr, by simp [touches]⟩
    rw [if_pos hany]
    refine ⟨_, rfl, ?_⟩
    exact List.mem_map.mpr ⟨r, List.mem_filter.mpr ⟨hr, by simp⟩, rfl⟩
  · intro r hr
    rw [findNode_buildRelationshipGraph]
    have hany : rels.any (touches r.to_table) = true :=
      List.any_eq_true.mpr ⟨r, hr, by simp [touches]⟩
    rw [if_pos hany]
    refine ⟨_, rfl, ?_⟩
    exact List.mem_map.mpr ⟨r, List.mem_filter.mpr ⟨hr, by simp⟩, rfl⟩
  · intro r hr hself
    rw [findNode_buildRelationshipGraph]
    have hany : rels.any (touches r.from_table) = true :=
      List.any_eq_true.mpr ⟨r, hr, by simp [touches]⟩
    rw [if_pos hany]
    refine ⟨_, rfl, ?_, ?_⟩
    · exact List.mem_map.mpr ⟨r, List.mem_filter.mpr ⟨hr, by simp⟩, rfl⟩
    · exact List.mem_map.mpr ⟨r, List.mem_filter.mpr ⟨hr, by simp [hself]⟩, rfl⟩
  · intro t n h
    rw [findNode_buildRelationshipGraph] at h
    by_cases hany : rels.any (touches t) = true
    · rw [if_pos hany] at h
      obtain rfl := (Option.some.injEq _ _).mp h.symm
      exact ⟨rfl, rfl⟩
    · rw [if_neg hany] at h
      cases h

/-- Witness for `relationship_graph_invariant`: two edges, one of them
self-referencing (`employees.manager_id → employees.id`). -/

theorem relationship_graph_invariant_witness :
    (∃ n, findNode (buildRelationshipGraph
        [⟨"orders", "customer_id", "customers", "id"⟩,
         ⟨"employees", "manager_id", "employees", "id"⟩]) "orders" = some n
      ∧ (⟨"customers", "id", "customer_id"⟩ : RefEntry) ∈ n.references)
    ∧ (∃ n, findNode (buildRelationshipGraph
        [⟨"orders", "customer_id", "customers", "id"⟩,
         ⟨"employees", "manager_id", "employees", "id"⟩]) "employees" = some n
      ∧ (⟨"employees", "id", "manager_id"⟩ : RefEntry) ∈ n.references
      ∧ (⟨"employees", "manager_id", "id"⟩ : RefEntry) ∈ n.referencedBy)
    ∧ totalReferences (buildRelationshipGraph
        [⟨"orders", "customer_id", "customers", "id"⟩,
         ⟨"employees", "manager_id", "employees", "id"⟩]) = 2 := by
  have h := relationship_graph_invariant
      [⟨"orders", "customer_id", "customers", "id"⟩,
       ⟨"employees", "manager_id", "employees", "id"⟩]
  refine ⟨?_, ?_, h.2.2.1⟩
  · exact h.1 ⟨"orders", "customer_id", "customers", "id"⟩ (by decide)
  · exact h.2.2.2.1 ⟨"employees", "manager_id", "employees", "id"⟩ (by decide) rfl

lemma mem_foldl_addNew :
    ∀ (l acc : List String) (x : String),
      x ∈ l.foldl (fun acc n => if acc.contains n then acc else acc ++ [n]) acc
        ↔ x ∈ acc ∨ x ∈ l := by
  intro l
  induction l with
  | nil =>
    intro acc x
    simp
  | cons a t ih =>
    intro acc x
    rw [List.foldl_cons, ih]
    by_cases h : acc.contains a
    · rw [if_pos h]
      have ha : a ∈ acc := by simpa using h
      simp only [List.mem_cons]
      constructor
      · rintro (hx | hx)
        · exact Or.inl hx
        · exact Or.inr (Or.inr hx)
      · rintro (hx | hx | hx)
        · exact Or.inl hx
        · exact Or.inl (hx ▸ ha)
        · exact Or.inr hx
    · rw [if_neg h]
      simp only [List.mem_append, List.mem_singleton, List.mem_cons]
      tauto

lemma mem_collectTableNames (dbs : List (String × DbView)) (n : String) :
    n ∈ collectTableNames dbs ↔ n ∈ dbs.flatMap (fun p => p.2.tables) := by
  rw [collectTableNames, mem_foldl_addNew]
  simp

lemma filter_beq_of_nodup (n : String) :
    ∀ (l : List String), l.Nodup →
      l.filter (fun t => t == n) = if n ∈ l then [n] else [] := by
  intro l
  induction l with
  | nil => intro _; simp
  | cons a t ih =>
    intro hnd
    obtain ⟨hna, hndt⟩ := List.nodup_cons.mp hnd
    by_cases h : a = n
    · subst h
      rw [List.filter_cons, if_pos (by simp), ih hndt, if_neg hna, if_pos (by simp)]
    · rw [List.filter_cons, if_neg (by simp [h]), ih hndt]
      by_cases hm : n ∈ t
      · rw [if_pos hm, if_pos (by simp [hm])]
      · rw [if_neg hm, if_neg (by simp [hm, Ne.symm h])]

lemma tableInstances_eq_filter (n : String) :
    ∀ (dbs : List (String × DbView)), (∀ p ∈ dbs, p.2.tables.Nodup) →
      tableInstances dbs n
        = (dbs.filter (fun p => p.2.tables.contains n)).map (·.1) := by
  intro dbs
  induction dbs with
  | nil => intro _; rfl
  | cons p ps ih =>
    intro hnd
    have hp : p.2.tables.Nodup := hnd p (by simp)
    have hps : ∀ q ∈ ps, q.2.tables.Nodup := fun q hq => hnd q (by simp [hq])
    rw [tableInstances, List.flatMap_cons]
    rw [show (ps.flatMap (fun q => (q.2.tables.filter (fun t => t == n)).map (fun _ => q.1)))
        = tableInstances ps n from rfl, ih hps]
    rw [filter_beq_of_nodup n p.2.tables hp, List.filter_cons]
    by_cases hm : n ∈ p.2.tables
    · rw [if_pos hm, if_pos (by simpa using hm)]
      simp
    · rw [if_neg hm, if_neg (by simpa using hm)]
      simp

lemma analyzeCross_small (dbs : List (String × DbView))
    (hlen : dbs.length ≤ 1) (hnd : ∀ p ∈ dbs, p.2.tables.Nodup) :
    analyzeCrossDatabasePatterns dbs = [] := by
  rw [analyzeCrossDatabasePatterns]
  have h1 : (collectTableNames dbs).filterMap (fun n =>
      let inst := tableInstances dbs n
      if 1 < inst.length then some (CrossInsight.duplicateTables n inst) else none) = [] := by
    rw [List.filterMap_eq_nil_iff]
    intro n _
    have hle : (tableInstances dbs n).length ≤ 1 := by
      rw [tableInstances_eq_filter n dbs hnd, List.length_map]
      exact le_trans (List.length_filter_le _ _) hlen
    rw [if_neg (by omega)]
  have h2 : ((dbs.filter (fun p => 0 < p.2.userTables ∨ 0 < p.2.eventTables)).map (·.1)).length ≤ 1 := by
    rw [List.length_map]
    exact le_trans (List.length_filter_le _ _) hlen
  rw [h1]
  rw [if_neg (by omega)]
  rfl

/-- Claim C9: observably, cross-database insights are produced exactly when
cross-database analysis is requested and more than one database was analyzed
(the source guards on the TARGET list length, but with at most one analyzed
database the pattern scan finds nothing, so the outputs coincide); when it
runs, every table name held by at least two analyzed databases is flagged
`duplicate_table_structure` with those databases listed in order, and exactly
one `distributed_user_data` insight is emitted iff at least two analyzed
databases contain user tables or event tables. -/

theorem cross_database_insights (cross : Bool) (targetDatabases : List String)
    (analyzed : List (String × DbView))
    (hlen : analyzed.length ≤ targetDatabases.length)
    (hnd : ∀ p ∈ analyzed, p.2.tables.Nodup) :
    (discoverCrossInsights cross targetDatabases analyzed
      = if cross = true ∧ 1 < analyzed.length then analyzeCrossDatabasePatterns analyzed
        else [])
    ∧ (∀ n, 2 ≤ (analyzed.filter (fun p => p.2.tables.contains n)).length →
        CrossInsight.duplicateTables n
            ((analyzed.filter (fun p => p.2.tables.contains n)).map (·.1))
          ∈ analyzeCrossDatabasePatterns analyzed)
    ∧ ((analyzeCrossDatabasePatterns analyzed).filter isDistributedInsight
        = if 2 ≤ (analyzed.filter (fun p => 0 < p.2.userTables ∨ 0 < p.2.eventTables)).length
          then [CrossInsight.distributedUserData
            ((analyzed.filter (fun p => 0 < p.2.userTables ∨ 0 < p.2.eventTables)).map (·.1))]
          else []) := by
  refine ⟨?_, ?_, ?_⟩
  · by_cases hcr : cross = true
    · by_cases h2 : 1 < analyzed.length
      · have h1 : 1 < targetDatabases.length := lt_of_lt_of_le h2 hlen
        rw [discoverCrossInsights, if_pos ⟨hcr, h1⟩, if_pos ⟨hcr, h2⟩]
      · rw [if_neg (fun hh => h2 hh.2)]
        by_cases h1 : 1 < targetDatabases.length
        · rw [discoverCrossInsights, if_pos ⟨hcr, h1⟩]
          exact analyzeCross_small analyzed (by omega) hnd
        · rw [discoverCrossInsights, if_neg (fun hh => h1 hh.2)]
    · rw [discoverCrossInsights, if_neg (fun hh => hcr hh.1),
        if_neg (fun hh => hcr hh.1)]
  · intro n hcount
    have hinst : tableInstances analyzed n
        = (analyzed.filter (fun p => p.2.tables.contains n)).map (·.1) :=
      tableInstances_eq_filter n analyzed hnd
    have hilen : 1 < (tableInstances analyzed n).length := by
      rw [hinst, List.length_map]
      omega
    have hne : (analyzed.filter (fun p => p.2.tables.contains n)) ≠ [] := by
      intro hh
      rw [hh] at hcount
      simp at hcount
    obtain ⟨p, hpmem⟩ := List.exists_mem_of_ne_nil _ hne
    have hpf := List.mem_filter.mp hpmem
    have hcoll : n ∈ collectTableNames analyzed := by
      rw [mem_collectTableNames, List.mem_flatMap]
      exact ⟨p, hpf.1, by simpa using hpf.2⟩
    apply List.mem_append_left
    apply List.mem_filterMap.mpr
    refine ⟨n, hcoll, ?_⟩
    simp only
    rw [if_pos hilen, hinst]
  · rw [analyzeCrossDatabasePatterns, List.filter_append]
    have hleft : ((collectTableNames analyzed).filterMap (fun n =>
        let inst := tableInstances analyzed n
        if 1 < inst.length then some (CrossInsight.duplicateTables n inst)
        else none)).filter isDistributedInsight = [] := by
      rw [List.filter_eq_nil_iff]
      intro x hx
      obtain ⟨n, _, hfn⟩ := List.mem_filterMap.mp hx
      simp only at hfn
      by_cases hc : 1 < (tableInstances analyzed n).length
      · rw [if_pos hc] at hfn
        obtain rfl := (Option.some.injEq _ _).mp hfn
        simp [isDistributedInsight]
      · rw [if_neg hc] at hfn
        cases hfn
    rw [hleft, List.nil_append]
    have hmaplen : ((analyzed.filter (fun p => 0 < p.2.userTables ∨ 0 < p.2.eventTables)).map
        (fun p => p.1)).length
        = (analyzed.filter (fun p => 0 < p.2.userTables ∨ 0 < p.2.eventTables)).length :=
      List.length_map _ _
    by_cases hc : 2 ≤ (analyzed.filter (fun p => 0 < p.2.userTables ∨ 0 < p.2.eventTables)).length
    · rw [if_pos hc]
      rw [if_pos (by omega)]
      simp [isDistributedInsight]
    · rw [if_neg hc]
      rw [if_neg (by omega)]
      rfl

/-- Witness for `cross_database_insights`: two analyzed databases (page of a
three-database server) both holding a `users` table and both user-ish. -/

theorem cross_database_insights_witness :
    CrossInsight.duplicateTables "users" ["a", "b"]
      ∈ analyzeCrossDatabasePatterns
          [("a", ⟨["users", "orders"], 1, 0⟩), ("b", ⟨["users"], 0, 1⟩)]
    ∧ discoverCrossInsights true ["a", "b", "c"]
          [("a", ⟨["users", "orders"], 1, 0⟩), ("b", ⟨["users"], 0, 1⟩)]
        = analyzeCrossDatabasePatterns
          [("a", ⟨["users", "orders"], 1, 0⟩), ("b", ⟨["users"], 0, 1⟩)] := by
  have h := cross_database_insights true ["a", "b", "c"]
      [("a", ⟨["users", "orders"], 1, 0⟩), ("b", ⟨["users"], 0, 1⟩)]
      (by decide) (by decide)
  constructor
  · have h2 := h.2.1 "users" (by decide)
    simpa using h2
  · have h1 := h.1
    rw [if_pos ⟨rfl, by decide⟩] at h1
    exact h1
